import Mathlib

/-!
Verification of the geometric table detector and page-layout classifier of the
mdize document-conversion library.

The TypeScript source (`table-detector.ts`, `pdf-converter.ts`) is shallowly
embedded below.  Conventions of the embedding:

* JavaScript `number` (IEEE double) is modelled as `ℚ` with exact arithmetic;
  decimal literals of the source (0.55, 0.65, 1.2, ...) are written as exact
  rationals.  `Math.round` is `⌊x + 1/2⌋` (which is exactly JavaScript's
  rounding rule, including for negative arguments), `Math.floor`/`Math.ceil`
  on products `n * 0.65`, `n * 0.3`, `n * 0.25` with a list length `n` are
  computed exactly over `ℕ`.
* JavaScript's stable `Array.prototype.sort` with a numeric comparator is
  modelled by `List.insertionSort`, which is stable for the non-strict `≤`
  used here.
* JavaScript strings are Lean `String`s; `String.prototype.trim`,
  `split("\n")` and `join` are re-implemented character-wise (`trimStr`,
  `splitLines`, `String.intercalate`) so that they compute by reduction.
-/

/-- Model of `Math.round`: round half towards +∞, exactly JavaScript's behaviour. -/
def jsRound (q : ℚ) : ℤ := ⌊q + 1/2⌋

/-- Model of `Math.ceil (n * 0.3)` for a natural `n`, computed exactly over `ℕ`:
`⌈3n/10⌉ = (3n + 9) / 10`. -/
def ceilThreeTenths (n : ℕ) : ℕ := (3 * n + 9) / 10

/-- Model of `Math.ceil (n * 0.25)` for a natural `n`, computed exactly over `ℕ`:
`⌈n/4⌉ = (n + 3) / 4`. -/
def ceilQuarter (n : ℕ) : ℕ := (n + 3) / 4

/-- Character-wise model of `String.prototype.trim` (drop whitespace from
both ends). -/
def trimChars (cs : List Char) : List Char :=
  ((cs.dropWhile Char.isWhitespace).reverse.dropWhile Char.isWhitespace).reverse

/-- The source's `s.trim()`, on Lean strings. -/
def trimStr (s : String) : String := String.mk (trimChars s.data)

/-- Model of `text.split("\n")` character-wise: `splitLinesAux` splits a character list
at every newline (JavaScript semantics: `"".split` gives `[""]`, a trailing
newline yields a trailing empty line). -/
def splitLinesAux : List Char → List (List Char)
  | [] => [[]]
  | c :: rest =>
    let r := splitLinesAux rest
    if c = '\n' then [] :: r else (c :: r.headD []) :: r.tail

/-- The source's `text.split("\n")`. -/
def splitLines (s : String) : List String := (splitLinesAux s.data).map String.mk

/-- The regex `PARTIAL_NUMBERING = /^\.\d+$/` of `table-detector.ts`:
a dot followed by one or more digits, nothing else. -/
def isPartialNumbering (s : String) : Bool :=
  match s.data with
  | '.' :: rest => !rest.isEmpty && rest.all Char.isDigit
  | _ => false

/-! ### Data model of `table-detector.ts` -/

/-- The structure `PositionedWord` of `table-detector.ts`. -/
structure PositionedWord where
  text : String
  x0 : ℚ
  x1 : ℚ
  top : ℚ
deriving DecidableEq, Repr

/-- The structure `TableDetectorOptions` of `table-detector.ts`.  The three gap thresholds
are `Option`s because the source distinguishes `undefined` from a supplied
value; the remaining fields carry the source's defaults. -/
structure TableDetectorOptions where
  pageWidth : ℚ
  yTolerance : ℚ := 5
  columnGap : Option ℚ := none
  globalColumnGap : Option ℚ := none
  alignTolerance : Option ℚ := none
  minTableDensity : ℚ := 2/10
  maxColumns : ℕ := 30
deriving DecidableEq, Repr

/-- The structure `RowInfo` of `table-detector.ts` (the `yKey` and `xGroups` fields are kept;
`numColumns = xGroups.length` as in the source). -/
structure RowInfo where
  yKey : ℚ := 0
  words : List PositionedWord := []
  text : String := ""
  lineWidth : ℚ := 0
  xGroups : List ℚ := []
  isParagraph : Bool := false
  hasPartialNumbering : Bool := false
  numColumns : ℕ := 0
  isTableRow : Bool := false
  alignedCount : ℕ := 0
deriving DecidableEq, Repr

/-! ### Step 1: group words into rows by Y position -/

/-- The row key `Math.round(w.top / yTolerance) * yTolerance`. -/
def yKeyOf (yTol : ℚ) (w : PositionedWord) : ℚ := (jsRound (w.top / yTol) : ℚ) * yTol

/-- The distinct row keys of a page, sorted ascending
(`[...rowsByY.keys()].sort((a, b) => a - b)`). -/
def rowKeys (yTol : ℚ) (words : List PositionedWord) : List ℚ :=
  List.insertionSort (· ≤ ·) ((words.map (yKeyOf yTol)).dedup)

/-- The words of the row with key `k`, in input order, stably sorted by `x0`
(`rowsByY.get(yKey)!.sort((a, b) => a.x0 - b.x0)`). -/
def rowAt (yTol : ℚ) (words : List PositionedWord) (k : ℚ) : List PositionedWord :=
  List.insertionSort (fun a b => a.x0 ≤ b.x0)
    (words.filter (fun w => decide (yKeyOf yTol w = k)))

/-- The page's rows in ascending key order (steps 1 of `detectTables`). -/
def pageRows (yTol : ℚ) (words : List PositionedWord) : List (List PositionedWord) :=
  (rowKeys yTol words).map (rowAt yTol words)

/-- The positive adjacent-word gaps of one (x-sorted) row:
`gap = rw[i].x0 - rw[i-1].x1`, kept when `gap > 0`. -/
def posGaps (row : List PositionedWord) : List ℚ :=
  ((row.zip row.tail).map (fun p => p.2.x0 - p.1.x1)).filter (fun g => decide (0 < g))

/-- All positive adjacent-word gaps of the page, sorted ascending
(`allGaps.sort((a, b) => a - b)`). -/
def sortedAllGaps (yTol : ℚ) (words : List PositionedWord) : List ℚ :=
  List.insertionSort (· ≤ ·) ((pageRows yTol words).flatMap posGaps)

/-! ### Adaptive thresholds -/

/-- The derived thresholds `(columnGap, globalColumnGap, alignTolerance)`. -/
structure Thresholds where
  columnGap : ℚ
  globalColumnGap : ℚ
  alignTolerance : ℚ
deriving DecidableEq, Repr

/-- The 65th percentile `allGaps[Math.floor(allGaps.length * 0.65)]` on the sorted gap list
(the index `⌊13n/20⌋` is computed exactly over `ℕ`; it is `< n` for `n ≥ 1`,
so the default value of `getD` is never used on a non-empty list). -/
def p65 (sortedGaps : List ℚ) : ℚ := sortedGaps.getD (sortedGaps.length * 13 / 20) 0

/-- The threshold derivation of `detectTables` (the three-way branch on
`columnGapOverride` / `allGaps.length > 0`). -/
def deriveThresholds (opts : TableDetectorOptions) (sortedGaps : List ℚ) : Thresholds :=
  match opts.columnGap with
  | some cg =>
      ⟨cg, opts.globalColumnGap.getD (max (cg * (6/10)) 8),
        opts.alignTolerance.getD (cg * (8/10))⟩
  | none =>
      if sortedGaps.isEmpty then
        ⟨50, opts.globalColumnGap.getD 30, opts.alignTolerance.getD 40⟩
      else
        let cg := max (p65 sortedGaps * (12/10)) 8
        ⟨cg, opts.globalColumnGap.getD (max (cg * (6/10)) 6),
          opts.alignTolerance.getD (max (cg * (15/10)) 15)⟩

/-! ### Clustering -/

/-- The tail of `clusterPositions`'s single pass: keep `sorted[i]` whenever
`sorted[i] - sorted[i-1] > gap`. -/
def clusterTail (gap : ℚ) : ℚ → List ℚ → List ℚ
  | _, [] => []
  | prev, x :: rest =>
      if gap < x - prev then x :: clusterTail gap x rest else clusterTail gap x rest

/-- The function `clusterPositions` of `table-detector.ts`: sort, keep the first element,
then every element whose distance to its sorted predecessor exceeds `gap`. -/
def clusterPositions (positions : List ℚ) (gap : ℚ) : List ℚ :=
  match List.insertionSort (· ≤ ·) positions with
  | [] => []
  | x :: rest => x :: clusterTail gap x rest

/-- Generic single-pass chunking: split a list into maximal runs, starting a
new chunk whenever `brk prev cur` holds for consecutive elements.  Both
`findFrequentPositions`'s grouping and the line grouping of `buildPageHtml`
are instances. -/
def chunkByAux (brk : α → α → Bool) : α → List α → List α → List (List α)
  | _, cur, [] => [cur]
  | prev, cur, x :: rest =>
      if brk prev x then cur :: chunkByAux brk x [x] rest
      else chunkByAux brk x (cur ++ [x]) rest

/-- Chunk a list at every consecutive pair satisfying `brk`. -/
def chunkWhen (brk : α → α → Bool) : List α → List (List α)
  | [] => []
  | x :: rest => chunkByAux brk x [x] rest

/-- The chunks of a sorted position list split at consecutive spacing `> gap`
(the grouping loops of `clusterPositions` and `findFrequentPositions`). -/
def gapChunks (gap : ℚ) (sorted : List ℚ) : List (List ℚ) :=
  chunkWhen (fun a b => decide (gap < b - a)) sorted

/-- The boundary relation between consecutive chunks: the last element of one
chunk and the first of the next satisfy the break test. -/
def chunkBoundary (brk : α → α → Bool) (g g' : List α) : Prop :=
  ∃ a b, g.getLast? = some a ∧ g'.head? = some b ∧ brk a b = true

/-- The code's median convention `g[Math.floor(g.length / 2)]`
(line 357 of `table-detector.ts`). -/
def medianMember (g : List ℚ) : ℚ := g.getD (g.length / 2) 0

/-- The function `findFrequentPositions` of `table-detector.ts`: group sorted positions at
spacing `> tolerance`, keep groups of size `≥ minCount`, return each group's
median member. -/
def findFrequentPositions (positions : List ℚ) (tolerance : ℚ) (minCount : ℕ) : List ℚ :=
  if positions.isEmpty then []
  else
    ((gapChunks tolerance (List.insertionSort (· ≤ ·) positions)).filter
      (fun g => decide (minCount ≤ g.length))).map medianMember

/-! ### Row construction and Stage-1 classification -/

/-- The largest element of a list (`Math.max(...l)`, only used on lists with
at least two elements). -/
def listMax : List ℚ → ℚ
  | [] => 0
  | x :: xs => xs.foldl max x

/-- The smallest element of a list (`Math.min(...l)`). -/
def listMin : List ℚ → ℚ
  | [] => 0
  | x :: xs => xs.foldl min x

/-- Build one `RowInfo` from an x-sorted row (the body of the
`for (const yKey of sortedKeys)` loop building `rows`). -/
def mkRowInfo (pageWidth columnGap yKey : ℚ) (rowWords : List PositionedWord) : RowInfo :=
  let text := String.intercalate " " (rowWords.map (·.text))
  let lineWidth : ℚ :=
    match rowWords with
    | [] => 0
    | w :: ws => ((w :: ws).getLast (by simp)).x1 - w.x0
  let xGroups := clusterPositions (rowWords.map (·.x0)) columnGap
  let rowGaps := posGaps rowWords
  let gapRange : ℚ := if 1 < rowGaps.length then listMax rowGaps - listMin rowGaps else 0
  let uniformGapThreshold := max (columnGap * (25/100)) 10
  let isParagraph : Bool :=
    if pageWidth * (55/100) < lineWidth ∧ 60 < text.length ∧
        (rowWords.length ≤ 2 ∨ gapRange < uniformGapThreshold) then true else false
  let hasPartialNumbering :=
    match rowWords with
    | [] => false
    | w :: _ => isPartialNumbering w.text
  { yKey := yKey, words := rowWords, text := text, lineWidth := lineWidth,
    xGroups := xGroups, isParagraph := isParagraph,
    hasPartialNumbering := hasPartialNumbering, numColumns := xGroups.length,
    isTableRow := false, alignedCount := 0 }

/-- The `rows : RowInfo[]` array of `detectTables` after Stage 1. -/
def rowsStage1 (opts : TableDetectorOptions) (words : List PositionedWord) : List RowInfo :=
  (rowKeys opts.yTolerance words).map (fun k =>
    mkRowInfo opts.pageWidth
      (deriveThresholds opts (sortedAllGaps opts.yTolerance words)).columnGap
      k (rowAt opts.yTolerance words k))

/-- The table-candidate (seed) rows: `row.numColumns >= 3 && !row.isParagraph`. -/
def seedRows (rows : List RowInfo) : List RowInfo :=
  rows.filter (fun r => decide (3 ≤ r.numColumns) && !r.isParagraph)

/-- The pool `allX0s`: the word x0 positions of all seed rows, in row order. -/
def allX0s (rows : List RowInfo) : List ℚ :=
  (seedRows rows).flatMap (fun r => r.words.map (·.x0))

/-! ### Stages 3 and 4: row classification -/

/-- The number of words of a row aligned to a global column:
`|word.x0 - colX| < alignTolerance` for some column, each word counted once. -/
def alignedCountOf (gcols : List ℚ) (alignTol : ℚ) (ws : List PositionedWord) : ℕ :=
  (ws.filter (fun w => gcols.any (fun c => decide (|w.x0 - c| < alignTol)))).length

/-- Stage 3 (`Step 4` of the source): skip paragraph and numbering-fragment
rows; otherwise record `alignedCount` and set `isTableRow` when
`alignedCount >= minAligned`. -/
def classifyRow (gcols : List ℚ) (alignTol : ℚ) (minAligned : ℕ) (r : RowInfo) : RowInfo :=
  if r.isParagraph || r.hasPartialNumbering then r
  else
    let ac := alignedCountOf gcols alignTol r.words
    { r with alignedCount := ac, isTableRow := (if minAligned ≤ ac then true else false) }

/-- The scan of `Step 4b`: walk a candidate list, succeeding at the first
table row and aborting at the first paragraph row. -/
def scanHit : List RowInfo → Bool
  | [] => false
  | r :: rest => if r.isTableRow then true else if r.isParagraph then false else scanHit rest

/-- The rows examined by the backward scan of `Step 4b`
(`j = idx-1` down to `max(0, idx-3)`). -/
def beforeCands (rows : List RowInfo) (idx : ℕ) : List RowInfo :=
  (List.range 3).filterMap (fun k => if k + 1 ≤ idx then rows[idx - (k + 1)]? else none)

/-- The rows examined by the forward scan of `Step 4b`
(`j = idx+1` up to `min(rows.length - 1, idx+3)`). -/
def afterCands (rows : List RowInfo) (idx : ℕ) : List RowInfo :=
  (List.range 3).filterMap (fun k => rows[idx + (k + 1)]?)

/-- One iteration of the `Step 4b` gap-fill loop at index `idx`. -/
def gapFillStep (rows : List RowInfo) (idx : ℕ) : List RowInfo :=
  match rows[idx]? with
  | none => rows
  | some r =>
    if r.isTableRow || r.isParagraph || decide (r.alignedCount < 2) then rows
    else if scanHit (beforeCands rows idx) && scanHit (afterCands rows idx) then
      rows.set idx { r with isTableRow := true }
    else rows

/-- The full `Step 4b` pass, in increasing index order. -/
def gapFill (rows : List RowInfo) : List RowInfo :=
  (List.range rows.length).foldl gapFillStep rows

/-- Stage 4 runs only when `minAligned > 2` (the `if (minAligned > 2)` guard). -/
def stage4 (minAligned : ℕ) (rows : List RowInfo) : List RowInfo :=
  if 2 < minAligned then gapFill rows else rows

/-! ### Step 6: region assembly -/

/-- Word-to-column assignment: the first column `c` with
`word.x0 < globalColumns[c+1] - colBuffer`, else the last column. -/
def assignCol (gcols : List ℚ) (colBuffer x0 : ℚ) : ℕ :=
  match (gcols.drop 1).findIdx? (fun c => decide (x0 < c - colBuffer)) with
  | some c => c
  | none => gcols.length - 1

/-- Add one word to its assigned cell (`cells[assignedCol] = cells[assignedCol]
? cells[assignedCol] + " " + word.text : word.text`). -/
def fillWord (gcols : List ℚ) (colBuffer : ℚ) (cells : List String) (w : PositionedWord) :
    List String :=
  let c := assignCol gcols colBuffer w.x0
  let cur := cells.getD c ""
  cells.set c (if cur = "" then w.text else cur ++ " " ++ w.text)

/-- Materialise one physical grid row: start from `numCols` empty cells and
fold the row's words in encounter order. -/
def fillCells (gcols : List ℚ) (colBuffer : ℚ) (ws : List PositionedWord) : List String :=
  ws.foldl (fillWord gcols colBuffer) (List.replicate gcols.length "")

/-- The number of non-empty cells (`row.filter((c) => c !== "").length`). -/
def filledCount (row : List String) : ℕ := (row.filter (fun c => decide (c ≠ ""))).length

/-- The number of columns non-empty in both rows (the `overlapCount` loop). -/
def overlapCount (buffer row : List String) : ℕ :=
  ((List.range row.length).filter (fun c =>
    decide (row.getD c "" ≠ "") && decide (buffer.getD c "" ≠ ""))).length

/-- Merge a continuation row into the buffer cell-wise (append non-empty cells,
space-joined). -/
def mergeInto (buffer row : List String) : List String :=
  (List.range row.length).foldl
    (fun buf c =>
      if row.getD c "" = "" then buf
      else buf.set c
        (if buf.getD c "" = "" then row.getD c "" else buf.getD c "" ++ " " ++ row.getD c ""))
    buffer

/-- The loop of `mergeLogicalRows`: fold a physical row into the buffer when it
has zero overlap with it or fills fewer than half as many cells; otherwise
flush the buffer. -/
def mergeGo (buffer : List String) : List (List String) → List (List String)
  | [] => [buffer]
  | row :: rest =>
      if overlapCount buffer row = 0 ∨
          (filledCount row : ℚ) < (filledCount buffer : ℚ) * (5/10) then
        mergeGo (mergeInto buffer row) rest
      else
        buffer :: mergeGo row rest

/-- The function `mergeLogicalRows` of `table-detector.ts`. -/
def mergeLogicalRows : List (List String) → List (List String)
  | [] => []
  | first :: rest => mergeGo first rest

/-- Format one table region: build the physical grid, merge logical rows, emit
header, `---` separator and data rows as a pipe table. -/
def regionOutput (gcols : List ℚ) (colBuffer : ℚ) (region : List RowInfo) : List String :=
  let mdRows := region.map (fun r => fillCells gcols colBuffer r.words)
  match mergeLogicalRows mdRows with
  | [] => []
  | header :: dataRows =>
      ("| " ++ String.intercalate " | " header ++ " |")
        :: ("| " ++ String.intercalate " | " (header.map (fun _ => "---")) ++ " |")
        :: dataRows.map (fun r => "| " ++ String.intercalate " | " r ++ " |")

/-- The `while (i < rows.length)` output loop of Step 6: non-table rows pass
through as trimmed text (when non-empty), maximal runs of table rows become
pipe-table regions. -/
def buildOutput (gcols : List ℚ) (colBuffer : ℚ) : List RowInfo → List String
  | [] => []
  | r :: rest =>
    if r.isTableRow then
      regionOutput gcols colBuffer (r :: rest.takeWhile (·.isTableRow))
        ++ buildOutput gcols colBuffer (rest.dropWhile (·.isTableRow))
    else
      (if trimStr r.text = "" then [] else [trimStr r.text]) ++ buildOutput gcols colBuffer rest
termination_by l => l.length
decreasing_by
  · have h := (List.dropWhile_sublist (·.isTableRow) (l := rest)).length_le
    simp only [List.length_cons]
    omega
  · simp

/-- The final `output.join("\n").trim()` followed by `return result || null` (the empty
string is falsy, so it becomes `none`). -/
def emitResult (out : List String) : Option String :=
  if trimStr (String.intercalate "\n" out) = "" then none
  else some (trimStr (String.intercalate "\n" out))

/-! ### The full detector, as a chain of named stages -/

/-- The thresholds used by `detectTables` on a given input. -/
def thresholdsOf (opts : TableDetectorOptions) (words : List PositionedWord) : Thresholds :=
  deriveThresholds opts (sortedAllGaps opts.yTolerance words)

/-- The bound `minFrequency = Math.max(Math.ceil(contributingRowCount * 0.3), 2)`. -/
def minFrequencyOf (opts : TableDetectorOptions) (words : List PositionedWord) : ℕ :=
  max (ceilThreeTenths (seedRows (rowsStage1 opts words)).length) 2

/-- The frequency-filtered x0 positions of Step 3. -/
def frequentOf (opts : TableDetectorOptions) (words : List PositionedWord) : List ℚ :=
  findFrequentPositions (allX0s (rowsStage1 opts words)) (max opts.yTolerance 5)
    (minFrequencyOf opts words)

/-- The page's global columns. -/
def globalColumnsOf (opts : TableDetectorOptions) (words : List PositionedWord) : List ℚ :=
  clusterPositions (frequentOf opts words) (thresholdsOf opts words).globalColumnGap

/-- The bound `minAligned = Math.max(2, Math.ceil(globalColumns.length * 0.25))`. -/
def minAlignedOf (opts : TableDetectorOptions) (words : List PositionedWord) : ℕ :=
  max 2 (ceilQuarter (globalColumnsOf opts words).length)

/-- The rows after Stage 3 and the Stage-4 gap fill. -/
def rowsFinal (opts : TableDetectorOptions) (words : List PositionedWord) : List RowInfo :=
  stage4 (minAlignedOf opts words)
    ((rowsStage1 opts words).map
      (classifyRow (globalColumnsOf opts words) (thresholdsOf opts words).alignTolerance
        (minAlignedOf opts words)))

/-- The fraction `tableRowCount / totalRows` of Step 5. -/
def densityOf (opts : TableDetectorOptions) (words : List PositionedWord) : ℚ :=
  (((rowsFinal opts words).filter (·.isTableRow)).length : ℚ) /
    ((rowsFinal opts words).length : ℚ)

/-- The buffer `colBuffer = Math.max(globalColumnGap * 0.5, 4)`. -/
def colBufferOf (opts : TableDetectorOptions) (words : List PositionedWord) : ℚ :=
  max ((thresholdsOf opts words).globalColumnGap * (5/10)) 4

/-- The function `detectTables` of `table-detector.ts`: the early-return gates followed by
region assembly.  The stages are the named definitions above; a returned
`none` is the source's `null`. -/
def detectTables (words : List PositionedWord) (opts : TableDetectorOptions) :
    Option String :=
  if words.isEmpty then none
  else if (allX0s (rowsStage1 opts words)).isEmpty then none
  else if (frequentOf opts words).isEmpty then none
  else if opts.maxColumns < (globalColumnsOf opts words).length then none
  else if densityOf opts words < opts.minTableDensity then none
  else emitResult
    (buildOutput (globalColumnsOf opts words) (colBufferOf opts words) (rowsFinal opts words))

/-! ### Page Layout Classifier (`buildPageHtml` of `pdf-converter.ts`) -/

/-- Phase B of `buildPageHtml`: consecutive enriched items are chained into the
same line while `Math.abs(item.top - prevItem.top) <= 5`; a larger jump starts
a new line.  Only the `top` field is consulted, so the grouping is stated on
the shared word data. -/
def groupLines (items : List PositionedWord) : List (List PositionedWord) :=
  chunkWhen (fun prev it => decide (5 < |it.top - prev.top|)) items

/-- The semantic line types of Phase D. -/
inductive LineType where
  | heading
  | bullet
  | ordered
  | paragraph
deriving DecidableEq, Repr

/-- Outcome of Phase-D classification: the type, and the heading level when the
line is a heading. -/
structure LineClass where
  type : LineType
  headingLevel : Option ℕ
deriving DecidableEq, Repr

/-- The regex `/^[•●○▪■\-*→]\s/`: a bullet glyph followed by whitespace. -/
def bulletPrefixTest (s : String) : Bool :=
  match s.data with
  | c :: d :: _ =>
      (c = '•' || c = '●' || c = '○' || c = '▪' || c = '■' || c = '-' || c = '*' || c = '→')
        && d.isWhitespace
  | _ => false

/-- The regex `/^(\d+[.)]\s|[a-z][.)]\s|\([a-z0-9]+\)\s)/i`: a numeric, single
alphabetic, or parenthesised alphanumeric ordinal prefix (case-insensitive,
hence `isAlpha`/`isAlphanum`). -/
def orderedPrefixTest (s : String) : Bool :=
  (match (s.data.span Char.isDigit) with
    | (ds, p :: w :: _) => !ds.isEmpty && (p = '.' || p = ')') && w.isWhitespace
    | _ => false)
  || (match s.data with
    | a :: p :: w :: _ => a.isAlpha && (p = '.' || p = ')') && w.isWhitespace
    | _ => false)
  || (match s.data with
    | '(' :: rest =>
        (match rest.span Char.isAlphanum with
          | (xs, ')' :: w :: _) => !xs.isEmpty && w.isWhitespace
          | _ => false)
    | _ => false)

/-- Phase D of `buildPageHtml`: `ratio = roundedSize / bodySize`; heading when
`ratio >= 1.15` and the text has at most 120 characters, with level 1 at
`ratio >= 1.8`, level 2 at `ratio >= 1.5`, else level 3; otherwise bullet,
ordered, or paragraph by prefix. -/
def classifyLine (roundedSize bodySize : ℚ) (text : String) : LineClass :=
  let ratio := roundedSize / bodySize
  if 23/20 ≤ ratio ∧ text.length ≤ 120 then
    { type := .heading,
      headingLevel := some (if 9/5 ≤ ratio then 1 else if 3/2 ≤ ratio then 2 else 3) }
  else if bulletPrefixTest text then { type := .bullet, headingLevel := none }
  else if orderedPrefixTest text then { type := .ordered, headingLevel := none }
  else { type := .paragraph, headingLevel := none }

/-! ### Numbering Post-Processor (`mergeMasterFormatNumbering`) -/

/-- The blank-line test `lines[j].trim() === ""`. -/
def isBlankLine (s : String) : Bool := trimStr s = ""

/-- The forward scan `j = i + 1; while (j < lines.length && blank) j++`:
skip blank lines, return the first non-blank line and the remainder after it. -/
def nextNonBlank (ls : List String) : Option (String × List String) :=
  match ls.dropWhile isBlankLine with
  | [] => none
  | t :: rest => some (t, rest)

/-- The merging loop of `mergeMasterFormatNumbering` on the line list: a line
that is (after trimming) a bare numbering fragment is joined with the next
non-blank line by a single space, consuming it (and the skipped blanks);
every other line — and a trailing fragment with no following non-blank line —
passes through unchanged. -/
def mergeLines : List String → List String
  | [] => []
  | l :: rest =>
    if isPartialNumbering (trimStr l) then
      match h : nextNonBlank rest with
      | some (t, rest2) => (trimStr l ++ " " ++ trimStr t) :: mergeLines rest2
      | none => l :: mergeLines rest
    else l :: mergeLines rest
termination_by l => l.length
decreasing_by
  · simp only [nextNonBlank] at h
    rcases h2 : rest.dropWhile isBlankLine with _ | ⟨t', rest2'⟩ <;> rw [h2] at h
    · exact absurd h (by simp)
    · have hs := (List.dropWhile_sublist isBlankLine (l := rest)).length_le
      rw [h2] at hs
      simp only [Option.some.injEq, Prod.mk.injEq] at h
      obtain ⟨-, h3⟩ := h
      subst h3
      simp only [List.length_cons] at hs ⊢
      omega
  · simp
  · simp

/-- The function `mergeMasterFormatNumbering` of `table-detector.ts`. -/
def mergeMasterFormatNumbering (text : String) : String :=
  String.intercalate "\n" (mergeLines (splitLines text))

/-! ### A concrete page used as a running example

A three-column, two-row table page: inter-column gaps of 150 units,
no intra-cell gaps, page width 1000. -/

/-- The example page's words. -/
def exampleWords : List PositionedWord :=
  [⟨"A1", 0, 50, 0⟩, ⟨"B1", 200, 250, 0⟩, ⟨"C1", 400, 450, 0⟩,
    ⟨"A2", 0, 50, 10⟩, ⟨"B2", 200, 250, 10⟩, ⟨"C2", 400, 450, 10⟩]

/-- Detector options with all defaults, page width 1000, and density
threshold `d`. -/
def exampleOpts (d : ℚ) : TableDetectorOptions := ⟨1000, 5, none, none, none, d, 30⟩

/-- The Stage-1 row of the example page at `top = 0`. -/
def exampleRow1 : RowInfo :=
  { yKey := 0, words := [⟨"A1", 0, 50, 0⟩, ⟨"B1", 200, 250, 0⟩, ⟨"C1", 400, 450, 0⟩],
    text := "A1 B1 C1", lineWidth := 450, xGroups := [0, 200, 400],
    isParagraph := false, hasPartialNumbering := false, numColumns := 3,
    isTableRow := false, alignedCount := 0 }

/-- The Stage-1 row of the example page at `top = 10`. -/
def exampleRow2 : RowInfo :=
  { yKey := 10, words := [⟨"A2", 0, 50, 10⟩, ⟨"B2", 200, 250, 10⟩, ⟨"C2", 400, 450, 10⟩],
    text := "A2 B2 C2", lineWidth := 450, xGroups := [0, 200, 400],
    isParagraph := false, hasPartialNumbering := false, numColumns := 3,
    isTableRow := false, alignedCount := 0 }

/-- The row `exampleRow1` after Stage 3: all three words aligned. -/
def exampleRow1T : RowInfo :=
  { yKey := 0, words := [⟨"A1", 0, 50, 0⟩, ⟨"B1", 200, 250, 0⟩, ⟨"C1", 400, 450, 0⟩],
    text := "A1 B1 C1", lineWidth := 450, xGroups := [0, 200, 400],
    isParagraph := false, hasPartialNumbering := false, numColumns := 3,
    isTableRow := true, alignedCount := 3 }

/-- The row `exampleRow2` after Stage 3: all three words aligned. -/
def exampleRow2T : RowInfo :=
  { yKey := 10, words := [⟨"A2", 0, 50, 10⟩, ⟨"B2", 200, 250, 10⟩, ⟨"C2", 400, 450, 10⟩],
    text := "A2 B2 C2", lineWidth := 450, xGroups := [0, 200, 400],
    isParagraph := false, hasPartialNumbering := false, numColumns := 3,
    isTableRow := true, alignedCount := 3 }

/-! ## Theorems

### Generic properties of the single-pass chunking -/

theorem chunkByAux_flatten (brk : α → α → Bool) (l : List α) :
    ∀ (prev : α) (cur : List α), (chunkByAux brk prev cur l).flatten = cur ++ l := by
  induction l with
  | nil => intro prev cur; simp [chunkByAux]
  | cons x rest ih =>
    intro prev cur
    simp only [chunkByAux]
    split
    · simp [ih]
    · simp [ih]

theorem chunkWhen_flatten (brk : α → α → Bool) (l : List α) :
    (chunkWhen brk l).flatten = l := by
  cases l with
  | nil => rfl
  | cons x rest => simpa [chunkWhen] using chunkByAux_flatten brk rest x [x]

theorem chunkByAux_first (brk : α → α → Bool) (l : List α) :
    ∀ (prev : α) (cur : List α), ∃ t gs, chunkByAux brk prev cur l = (cur ++ t) :: gs := by
  induction l with
  | nil => intro prev cur; exact ⟨[], [], by simp [chunkByAux]⟩
  | cons x rest ih =>
    intro prev cur
    simp only [chunkByAux]
    split
    · exact ⟨[], chunkByAux brk x [x] rest, by simp⟩
    · obtain ⟨t, gs, h⟩ := ih x (cur ++ [x])
      exact ⟨[x] ++ t, gs, by simp [h]⟩

theorem chunkByAux_ne_nil (brk : α → α → Bool) (l : List α) :
    ∀ (prev : α) (cur : List α), cur ≠ [] → ∀ g ∈ chunkByAux brk prev cur l, g ≠ [] := by
  induction l with
  | nil => intro prev cur hc; simpa [chunkByAux] using hc
  | cons x rest ih =>
    intro prev cur hc g hg
    simp only [chunkByAux] at hg
    split at hg
    · rcases List.mem_cons.1 hg with h | h
      · exact h ▸ hc
      · exact ih x [x] (by simp) g h
    · exact ih x (cur ++ [x]) (by simp) g hg

theorem chunkWhen_ne_nil (brk : α → α → Bool) (l : List α) :
    ∀ g ∈ chunkWhen brk l, g ≠ [] := by
  cases l with
  | nil => simp [chunkWhen]
  | cons x rest => exact chunkByAux_ne_nil brk rest x [x] (by simp)

theorem chunkByAux_chain_within (brk : α → α → Bool) (l : List α) :
    ∀ (prev : α) (cur : List α), cur.getLast? = some prev →
      List.Chain' (fun a b => brk a b = false) cur →
      ∀ g ∈ chunkByAux brk prev cur l, List.Chain' (fun a b => brk a b = false) g := by
  induction l with
  | nil =>
    intro prev cur _ hchain g hg
    simp only [chunkByAux, List.mem_singleton] at hg
    exact hg ▸ hchain
  | cons x rest ih =>
    intro prev cur hlast hchain g hg
    simp only [chunkByAux] at hg
    split at hg
    · rcases List.mem_cons.1 hg with h | h
      · exact h ▸ hchain
      · exact ih x [x] (by simp) (List.chain'_singleton x) g h
    · rename_i hbrk
      refine ih x (cur ++ [x]) (List.getLast?_concat cur) ?_ g hg
      refine List.Chain'.append hchain (List.chain'_singleton x) ?_
      intro a ha b hb
      simp only [List.head?_cons, Option.mem_def, Option.some.injEq] at hb
      rw [hlast] at ha
      simp only [Option.mem_def, Option.some.injEq] at ha
      subst ha; subst hb
      simpa using hbrk

theorem chunkWhen_chain_within (brk : α → α → Bool) (l : List α) :
    ∀ g ∈ chunkWhen brk l, List.Chain' (fun a b => brk a b = false) g := by
  cases l with
  | nil => simp [chunkWhen]
  | cons x rest =>
    exact chunkByAux_chain_within brk rest x [x] (by simp) (List.chain'_singleton x)

theorem chunkByAux_chain_boundary (brk : α → α → Bool) (l : List α) :
    ∀ (prev : α) (cur : List α), cur.getLast? = some prev →
      List.Chain' (chunkBoundary brk) (chunkByAux brk prev cur l) := by
  induction l with
  | nil => intro prev cur _; simp [chunkByAux]
  | cons x rest ih =>
    intro prev cur hlast
    simp only [chunkByAux]
    split
    · rename_i hbrk
      refine List.chain'_cons'.2 ⟨?_, ih x [x] (by simp)⟩
      intro g hg
      obtain ⟨t, gs, hfirst⟩ := chunkByAux_first brk rest x [x]
      rw [hfirst] at hg
      simp only [List.head?_cons, Option.mem_def, Option.some.injEq] at hg
      exact ⟨prev, x, hlast, by simp [← hg], hbrk⟩
    · exact ih x (cur ++ [x]) (List.getLast?_concat cur)

theorem chunkWhen_chain_boundary (brk : α → α → Bool) (l : List α) :
    List.Chain' (chunkBoundary brk) (chunkWhen brk l) := by
  cases l with
  | nil => simp [chunkWhen]
  | cons x rest => exact chunkByAux_chain_boundary brk rest x [x] (by simp)

theorem chunkWhen_sorted (brk : α → α → Bool) (R : α → α → Prop) (l : List α)
    (hl : List.Pairwise R l) : ∀ g ∈ chunkWhen brk l, List.Pairwise R g := by
  intro g hg
  refine List.Pairwise.sublist ?_ hl
  have := List.sublist_flatten_of_mem hg
  rwa [chunkWhen_flatten] at this

/-! ### C1: the Column Clusterer -/

theorem chunkByAux_map_head (gap : ℚ) (l : List ℚ) :
    ∀ (prev : ℚ) (cur : List ℚ), cur ≠ [] →
      (chunkByAux (fun a b => decide (gap < b - a)) prev cur l).map (fun c => c.headD 0)
        = cur.headD 0 :: clusterTail gap prev l := by
  induction l with
  | nil => intro prev cur _; simp [chunkByAux, clusterTail]
  | cons x rest ih =>
    intro prev cur hc
    simp only [chunkByAux, clusterTail]
    split
    · rename_i hbrk
      rw [if_pos (by simpa using hbrk)]
      simp only [List.map_cons]
      rw [ih x [x] (by simp)]
      simp
    · rename_i hbrk
      rw [if_neg (by simpa using hbrk)]
      rw [ih x (cur ++ [x]) (by simp)]
      cases cur with
      | nil => exact absurd rfl hc
      | cons c cs => simp

/-- C1 (amended): for every list of x-positions and every gap threshold, the
Column Clusterer `clusterPositions` partitions the sorted positions into
clusters at every consecutive spacing exceeding the gap, and returns for each
cluster its FIRST (lowest) member — not its median member. -/
theorem clusterPositions_first_of_clusters (positions : List ℚ) (gap : ℚ) :
    clusterPositions positions gap
      = (gapChunks gap (List.insertionSort (· ≤ ·) positions)).map (fun c => c.headD 0)
    ∧ (gapChunks gap (List.insertionSort (· ≤ ·) positions)).flatten
        = List.insertionSort (· ≤ ·) positions
    ∧ (∀ c ∈ gapChunks gap (List.insertionSort (· ≤ ·) positions),
        c ≠ [] ∧ List.Chain' (fun a b => b - a ≤ gap) c ∧ ∀ x ∈ c, c.headD 0 ≤ x)
    ∧ List.Chain' (chunkBoundary (fun a b => decide (gap < b - a)))
        (gapChunks gap (List.insertionSort (· ≤ ·) positions)) := by
  refine ⟨?_, chunkWhen_flatten _ _, ?_, chunkWhen_chain_boundary _ _⟩
  · unfold clusterPositions gapChunks
    cases h : List.insertionSort (fun a b => a ≤ b) positions with
    | nil => simp [chunkWhen]
    | cons x rest =>
      simp only [chunkWhen]
      rw [chunkByAux_map_head gap rest x [x] (by simp)]
      simp
  · intro c hc
    refine ⟨chunkWhen_ne_nil _ _ c hc, ?_, ?_⟩
    · have h := chunkWhen_chain_within (fun a b => decide (gap < b - a)) _ c hc
      refine h.imp ?_
      intro a b hab
      simpa using hab
    · have hsorted : List.Pairwise (· ≤ ·) c := by
        refine chunkWhen_sorted _ _ _ ?_ c hc
        exact List.sorted_insertionSort (· ≤ ·) positions
      intro x hx
      cases c with
      | nil => simp at hx
      | cons a as =>
        simp only [List.headD_cons]
        rcases List.mem_cons.1 hx with h | h
        · exact h ▸ le_refl a
        · exact List.rel_of_pairwise_cons hsorted h

/-- C1 (counterexample): on the single cluster `{0, 5, 10}` (gap 100) the
clusterer returns the first member 0, not the cluster's median member 5 as the
claim states. -/
theorem clusterPositions_counterexample :
    clusterPositions [0, 5, 10] 100 = [0]
    ∧ gapChunks 100 (List.insertionSort (· ≤ ·) [0, 5, 10]) = [[0, 5, 10]]
    ∧ medianMember [0, 5, 10] = 5
    ∧ clusterPositions [0, 5, 10] 100
        ≠ (gapChunks 100 (List.insertionSort (· ≤ ·) [0, 5, 10])).map medianMember := by
  refine ⟨?_, ?_, ?_, ?_⟩ <;>
    norm_num [clusterPositions, clusterTail, gapChunks, chunkWhen, chunkByAux,
      medianMember, List.insertionSort, List.orderedInsert]

/-! ### C9: line grouping of the Page Layout Classifier vs. the Row Grouper -/

/-- C9 (amended): the Page Layout Classifier groups consecutive items into the
same line by sequential chaining — a new line starts exactly when consecutive
tops differ by more than 5 — so within a line all consecutive tops differ by
at most 5 and across a line break by more than 5.  This is NOT the
quantization-bucket partition of the Row Grouper (see the counterexample). -/
theorem groupLines_chaining (items : List PositionedWord) :
    (groupLines items).flatten = items
    ∧ (∀ g ∈ groupLines items, g ≠ [] ∧ List.Chain' (fun a b => |b.top - a.top| ≤ 5) g)
    ∧ List.Chain' (chunkBoundary (fun prev it => decide (5 < |it.top - prev.top|)))
        (groupLines items) := by
  unfold groupLines
  refine ⟨chunkWhen_flatten _ _, ?_, chunkWhen_chain_boundary _ _⟩
  intro g hg
  refine ⟨chunkWhen_ne_nil _ _ g hg, ?_⟩
  have h := chunkWhen_chain_within _ items g hg
  refine h.imp ?_
  intro a b hab
  have hab2 := of_decide_eq_false hab
  exact not_lt.1 hab2

/-- C9 (counterexample): two words with tops 2 and 3 land on the same line of
the Page Layout Classifier (|3 − 2| ≤ 5) but in different quantization buckets
— hence different rows — of the Row Grouper (round(2/5)·5 = 0 ≠ 5 =
round(3/5)·5), refuting the claimed equivalence of the two partitions. -/
theorem groupLines_ne_rowPartition :
    groupLines [⟨"a", 0, 1, 2⟩, ⟨"b", 0, 1, 3⟩]
        = [[⟨"a", 0, 1, 2⟩, ⟨"b", 0, 1, 3⟩]]
    ∧ yKeyOf 5 ⟨"a", 0, 1, 2⟩ = 0
    ∧ yKeyOf 5 ⟨"b", 0, 1, 3⟩ = 5
    ∧ pageRows 5 [⟨"a", 0, 1, 2⟩, ⟨"b", 0, 1, 3⟩]
        = [[⟨"a", 0, 1, 2⟩], [⟨"b", 0, 1, 3⟩]] := by
  refine ⟨?_, ?_, ?_, ?_⟩ <;>
    norm_num [groupLines, chunkWhen, chunkByAux, yKeyOf, jsRound, pageRows, rowKeys,
      rowAt, List.insertionSort, List.orderedInsert, List.dedup, List.pwFilter,
      List.filter]

/-! ### C8: heading classification of the Page Layout Classifier -/

/-- C8: on the non-table path, with ratio = rounded line size / body size, a
line is classified as a heading iff ratio ≥ 1.15 and its text is at most 120
characters; heading level is 1 for ratio ≥ 1.8, 2 for 1.5 ≤ ratio < 1.8, else
3.  In particular ratio 2.0 gives level 1, ratio 1.2 gives level 3, and ratio
1.0 without a bullet or ordered prefix gives a paragraph. -/
theorem classifyLine_spec (rs bs : ℚ) (text : String) :
    ((classifyLine rs bs text).type = LineType.heading ↔
      (23/20 ≤ rs / bs ∧ text.length ≤ 120))
    ∧ (9/5 ≤ rs / bs → text.length ≤ 120 →
        classifyLine rs bs text = ⟨.heading, some 1⟩)
    ∧ (3/2 ≤ rs / bs → rs / bs < 9/5 → text.length ≤ 120 →
        classifyLine rs bs text = ⟨.heading, some 2⟩)
    ∧ (23/20 ≤ rs / bs → rs / bs < 3/2 → text.length ≤ 120 →
        classifyLine rs bs text = ⟨.heading, some 3⟩)
    ∧ (rs / bs = 2 → text.length ≤ 120 → classifyLine rs bs text = ⟨.heading, some 1⟩)
    ∧ (rs / bs = 6/5 → text.length ≤ 120 → classifyLine rs bs text = ⟨.heading, some 3⟩)
    ∧ (rs / bs = 1 → bulletPrefixTest text = false → orderedPrefixTest text = false →
        classifyLine rs bs text = ⟨.paragraph, none⟩) := by
  unfold classifyLine
  refine ⟨?_, ?_, ?_, ?_, ?_, ?_, ?_⟩
  · constructor
    · intro h
      by_contra hcond
      rw [if_neg hcond] at h
      split at h <;> simp_all
      split at h <;> simp_all
    · intro h
      rw [if_pos h]
  · intro h1 h2
    rw [if_pos ⟨le_trans (by norm_num) h1, h2⟩, if_pos h1]
  · intro h1 h2 h3
    rw [if_pos ⟨le_trans (by norm_num) h1, h3⟩, if_neg (by linarith), if_pos h1]
  · intro h1 h2 h3
    rw [if_pos ⟨h1, h3⟩, if_neg (by linarith), if_neg (by linarith)]
  · intro h1 h2
    rw [h1, if_pos ⟨by norm_num, h2⟩, if_pos (by norm_num)]
  · intro h1 h2
    rw [h1, if_pos ⟨by norm_num, h2⟩, if_neg (by norm_num), if_neg (by norm_num)]
  · intro h1 h2 h3
    rw [h1, if_neg (by norm_num), h2, h3]
    simp

/-- Witness for C8: a 24-point line over a 12-point body (ratio 2.0) with a
short text is a level-1 heading. -/
theorem classifyLine_spec_witness :
    classifyLine 24 12 "Title" = ⟨LineType.heading, some 1⟩ :=
  (classifyLine_spec 24 12 "Title").2.2.2.2.1 (by norm_num) (by decide)

/-! ### C3: shape of emitted table regions -/

theorem fillWord_length (gcols : List ℚ) (buf : ℚ) (cells : List String)
    (w : PositionedWord) : (fillWord gcols buf cells w).length = cells.length := by
  simp [fillWord]

theorem fillCells_length (gcols : List ℚ) (buf : ℚ) (ws : List PositionedWord) :
    (fillCells gcols buf ws).length = gcols.length := by
  unfold fillCells
  have h : ∀ (l : List PositionedWord) (cells : List String),
      (l.foldl (fillWord gcols buf) cells).length = cells.length := by
    intro l
    induction l with
    | nil => intro cells; rfl
    | cons w ws ih => intro cells; rw [List.foldl_cons, ih, fillWord_length]
  rw [h, List.length_replicate]

theorem mergeInto_length (buffer row : List String) :
    (mergeInto buffer row).length = buffer.length := by
  unfold mergeInto
  generalize List.range row.length = idxs
  induction idxs generalizing buffer with
  | nil => rfl
  | cons c cs ih =>
    rw [List.foldl_cons]
    split
    · exact ih buffer
    · rw [ih, List.length_set]

theorem mergeGo_length (n : ℕ) :
    ∀ (rows : List (List String)) (buffer : List String), buffer.length = n →
      (∀ r ∈ rows, r.length = n) → ∀ m ∈ mergeGo buffer rows, m.length = n := by
  intro rows
  induction rows with
  | nil =>
    intro buffer hb _ m hm
    simp only [mergeGo, List.mem_singleton] at hm
    exact hm ▸ hb
  | cons row rest ih =>
    intro buffer hb hr m hm
    simp only [mergeGo] at hm
    split at hm
    · refine ih (mergeInto buffer row) ?_ (fun r h => hr r (List.mem_cons_of_mem _ h)) m hm
      rw [mergeInto_length]; exact hb
    · rcases List.mem_cons.1 hm with h | h
      · exact h ▸ hb
      · exact ih row (hr row (List.mem_cons_self row rest)) (fun r h' => hr r (List.mem_cons_of_mem _ h'))
          m h

theorem findIdx?_some_lt (p : α → Bool) :
    ∀ (l : List α) (s i : ℕ), l.findIdx? p s = some i → i < s + l.length := by
  intro l
  induction l with
  | nil => intro s i h; simp [List.findIdx?] at h
  | cons a as ih =>
    intro s i h
    rw [List.findIdx?] at h
    split at h
    · simp only [Option.some.injEq] at h
      simp [← h]
    · have := ih (s + 1) i h
      simp only [List.length_cons]
      omega

/-- C3: for a non-empty global column list, every materialised grid row and
every logical row after wrapped-row merging has exactly `gcols.length` cells;
word-to-column assignment is a total function into the column range, and
adding a word to the grid touches exactly its assigned cell. -/
theorem tableRegion_shape (gcols : List ℚ) (colBuffer : ℚ)
    (wordRows : List (List PositionedWord)) (h : gcols ≠ []) :
    (∀ row ∈ wordRows.map (fillCells gcols colBuffer), row.length = gcols.length)
    ∧ (∀ merged ∈ mergeLogicalRows (wordRows.map (fillCells gcols colBuffer)),
        merged.length = gcols.length)
    ∧ (∀ x0 : ℚ, assignCol gcols colBuffer x0 < gcols.length)
    ∧ (∀ (cells : List String) (w : PositionedWord),
        (fillWord gcols colBuffer cells w).length = cells.length
        ∧ ∀ c, c ≠ assignCol gcols colBuffer w.x0 →
            (fillWord gcols colBuffer cells w)[c]? = cells[c]?) := by
  have hrows : ∀ row ∈ wordRows.map (fillCells gcols colBuffer),
      row.length = gcols.length := by
    intro row hrow
    obtain ⟨ws, _, rfl⟩ := List.mem_map.1 hrow
    exact fillCells_length gcols colBuffer ws
  refine ⟨hrows, ?_, ?_, ?_⟩
  · intro merged hm
    cases hmap : wordRows.map (fillCells gcols colBuffer) with
    | nil => rw [hmap] at hm; simp [mergeLogicalRows] at hm
    | cons first rest =>
      rw [hmap] at hm
      simp only [mergeLogicalRows] at hm
      refine mergeGo_length gcols.length rest first ?_ ?_ merged hm
      · exact hrows first (hmap ▸ List.mem_cons_self first rest)
      · intro r hr
        exact hrows r (hmap ▸ List.mem_cons_of_mem _ hr)
  · intro x0
    unfold assignCol
    split
    · rename_i c hc
      have := findIdx?_some_lt _ _ _ _ hc
      simp only [List.length_drop] at this
      omega
    · have : gcols.length ≠ 0 := by simpa using h
      omega
  · intro cells w
    refine ⟨fillWord_length gcols colBuffer cells w, ?_⟩
    intro c hc
    unfold fillWord
    exact List.getElem?_set_ne (Ne.symm hc)

/-- Witness for C3: with two global columns, a one-word row produces a
two-cell grid row and the word is assigned to column 0 (< 2). -/
theorem tableRegion_shape_witness :
    (fillCells [0, 100] 4 [⟨"w", 0, 10, 0⟩]).length = 2
    ∧ assignCol [0, 100] 4 0 < 2 := by
  have h := tableRegion_shape [0, 100] 4 [[⟨"w", 0, 10, 0⟩]] (by simp)
  constructor
  · exact h.1 (fillCells [0, 100] 4 [⟨"w", 0, 10, 0⟩]) (by simp)
  · exact h.2.2.1 0

/-! ### C7: the Numbering Post-Processor -/

/-- C7: the post-processor passes through every line that is not (after
trimming) a bare numbering fragment; each fragment line is replaced by the
fragment joined by a single space to the next non-blank line (skipping blank
lines), consuming that line; `nextNonBlank` indeed skips exactly the blank
lines; and the two Scenario-D inputs produce exactly the merged lines. -/
theorem mergeMasterFormatNumbering_spec :
    (∀ l rest, isPartialNumbering (trimStr l) = false →
        mergeLines (l :: rest) = l :: mergeLines rest)
    ∧ (∀ l rest t rest2, isPartialNumbering (trimStr l) = true →
        nextNonBlank rest = some (t, rest2) →
        mergeLines (l :: rest) = (trimStr l ++ " " ++ trimStr t) :: mergeLines rest2)
    ∧ (∀ rest t rest2, nextNonBlank rest = some (t, rest2) →
        ∃ blanks, rest = blanks ++ t :: rest2 ∧ (∀ b ∈ blanks, trimStr b = "")
          ∧ trimStr t ≠ "")
    ∧ mergeMasterFormatNumbering ".1\nThe intent of this Request\n.2\nAvailable information"
        = ".1 The intent of this Request\n.2 Available information"
    ∧ mergeMasterFormatNumbering
          ".1\n\nThe intent of this Request\n.2\nAvailable information"
        = ".1 The intent of this Request\n.2 Available information" := by
  have pass : ∀ l rest, isPartialNumbering (trimStr l) = false →
      mergeLines (l :: rest) = l :: mergeLines rest := by
    intro l rest h
    rw [mergeLines]
    simp [h]
  have merge : ∀ l rest t rest2, isPartialNumbering (trimStr l) = true →
      nextNonBlank rest = some (t, rest2) →
      mergeLines (l :: rest) = (trimStr l ++ " " ++ trimStr t) :: mergeLines rest2 := by
    intro l rest t rest2 h1 h2
    rw [mergeLines]
    simp only [h1, if_true]
    split
    · rename_i t' rest2' heq
      rw [h2] at heq
      simp only [Option.some.injEq, Prod.mk.injEq] at heq
      rw [heq.1, heq.2]
    · rename_i heq
      rw [h2] at heq
      exact absurd heq (by simp)
  have skips : ∀ rest t rest2, nextNonBlank rest = some (t, rest2) →
      ∃ blanks, rest = blanks ++ t :: rest2 ∧ (∀ b ∈ blanks, trimStr b = "")
        ∧ trimStr t ≠ "" := by
    intro rest
    induction rest with
    | nil => intro t rest2 h; simp [nextNonBlank] at h
    | cons a as ih =>
      intro t rest2 h
      by_cases hb : isBlankLine a
      · rw [nextNonBlank, List.dropWhile_cons, if_pos hb] at h
        obtain ⟨blanks, he, hbl, ht⟩ := ih t rest2 h
        exact ⟨a :: blanks, by simp [he], by
          intro b hbmem
          rcases List.mem_cons.1 hbmem with h' | h'
          · exact h' ▸ of_decide_eq_true hb
          · exact hbl b h', ht⟩
      · rw [nextNonBlank, List.dropWhile_cons, if_neg hb] at h
        simp only [Option.some.injEq, Prod.mk.injEq] at h
        refine ⟨[], by simp [h.1, h.2], by simp, ?_⟩
        rw [← h.1]
        simpa [isBlankLine] using hb
  refine ⟨pass, merge, skips, ?_, ?_⟩
  · have hsplit : splitLines ".1\nThe intent of this Request\n.2\nAvailable information"
        = [".1", "The intent of this Request", ".2", "Available information"] := by decide
    rw [mergeMasterFormatNumbering, hsplit]
    rw [merge ".1" _ "The intent of this Request" [".2", "Available information"]
      (by decide) (by decide)]
    rw [merge ".2" _ "Available information" [] (by decide) (by decide)]
    rw [show mergeLines ([] : List String) = [] from by rw [mergeLines]]
    decide
  · have hsplit : splitLines ".1\n\nThe intent of this Request\n.2\nAvailable information"
        = [".1", "", "The intent of this Request", ".2", "Available information"] := by
      decide
    rw [mergeMasterFormatNumbering, hsplit]
    rw [merge ".1" _ "The intent of this Request" [".2", "Available information"]
      (by decide) (by decide)]
    rw [merge ".2" _ "Available information" [] (by decide) (by decide)]
    rw [show mergeLines ([] : List String) = [] from by rw [mergeLines]]
    decide

/-- Witness for C7: the pass-through and merge cases applied at concrete
inputs: a non-fragment line passes through, and the fragment ".3" merges with
the following text line. -/
theorem mergeMasterFormatNumbering_spec_witness :
    mergeLines ["alpha"] = ["alpha"]
    ∧ mergeLines [".3", "", "beta"] = [".3 beta"] := by
  constructor
  · rw [mergeMasterFormatNumbering_spec.1 "alpha" [] (by decide)]
    rw [show mergeLines ([] : List String) = [] from by rw [mergeLines]]
  · rw [mergeMasterFormatNumbering_spec.2.1 ".3" ["", "beta"] "beta" [] (by decide) (by decide)]
    rw [show mergeLines ([] : List String) = [] from by rw [mergeLines]]
    decide

/-! ### C2: the Stage-4 gap fill -/

theorem gapFillStep_length (rows : List RowInfo) (idx : ℕ) :
    (gapFillStep rows idx).length = rows.length := by
  unfold gapFillStep
  split
  · rfl
  · split
    · rfl
    · split
      · exact List.length_set rows idx _
      · rfl

theorem gapFillStep_getElem_ne (rows : List RowInfo) (idx k : ℕ) (hk : k ≠ idx) :
    (gapFillStep rows idx)[k]? = rows[k]? := by
  unfold gapFillStep
  split
  · rfl
  · split
    · rfl
    · split
      · exact List.getElem?_set_ne (Ne.symm hk)
      · rfl

theorem gapFillStep_para (rows : List RowInfo) (idx k : ℕ) :
    ((gapFillStep rows idx)[k]?).map (·.isParagraph) = (rows[k]?).map (·.isParagraph) := by
  by_cases hk : k = idx
  · subst hk
    unfold gapFillStep
    split
    · rfl
    · rename_i r hr
      split
      · rfl
      · split
        · rw [List.getElem?_set_self (List.getElem?_eq_some.1 hr).1, hr]; rfl
        · rfl
  · rw [gapFillStep_getElem_ne rows idx k hk]

theorem gapFillStep_aligned (rows : List RowInfo) (idx k : ℕ) :
    ((gapFillStep rows idx)[k]?).map (·.alignedCount) = (rows[k]?).map (·.alignedCount) := by
  by_cases hk : k = idx
  · subst hk
    unfold gapFillStep
    split
    · rfl
    · rename_i r hr
      split
      · rfl
      · split
        · rw [List.getElem?_set_self (List.getElem?_eq_some.1 hr).1, hr]; rfl
        · rfl
  · rw [gapFillStep_getElem_ne rows idx k hk]

theorem gapFillStep_mono (rows : List RowInfo) (idx k : ℕ)
    (h : (rows[k]?).map (·.isTableRow) = some true) :
    ((gapFillStep rows idx)[k]?).map (·.isTableRow) = some true := by
  by_cases hk : k = idx
  · subst hk
    unfold gapFillStep
    split
    · exact h
    · rename_i r hr
      split
      · exact h
      · split
        · rw [List.getElem?_set_self (List.getElem?_eq_some.1 hr).1]; rfl
        · exact h
  · rw [gapFillStep_getElem_ne rows idx k hk]; exact h

theorem foldlGapFill_length (idxs : List ℕ) (rows : List RowInfo) :
    (idxs.foldl gapFillStep rows).length = rows.length := by
  induction idxs generalizing rows with
  | nil => rfl
  | cons i is ih => rw [List.foldl_cons, ih, gapFillStep_length]

theorem foldlGapFill_para (idxs : List ℕ) (rows : List RowInfo) (k : ℕ) :
    ((idxs.foldl gapFillStep rows)[k]?).map (·.isParagraph)
      = (rows[k]?).map (·.isParagraph) := by
  induction idxs generalizing rows with
  | nil => rfl
  | cons i is ih => rw [List.foldl_cons, ih, gapFillStep_para]

theorem foldlGapFill_mono (idxs : List ℕ) (rows : List RowInfo) (k : ℕ)
    (h : (rows[k]?).map (·.isTableRow) = some true) :
    ((idxs.foldl gapFillStep rows)[k]?).map (·.isTableRow) = some true := by
  induction idxs generalizing rows with
  | nil => exact h
  | cons i is ih => exact ih (gapFillStep rows i) (gapFillStep_mono rows i k h)

theorem foldlGapFill_untouched (idxs : List ℕ) (rows : List RowInfo) (k : ℕ)
    (h : ∀ i ∈ idxs, i ≠ k) : (idxs.foldl gapFillStep rows)[k]? = rows[k]? := by
  induction idxs generalizing rows with
  | nil => rfl
  | cons i is ih =>
    rw [List.foldl_cons, ih (gapFillStep rows i) (fun j hj => h j (List.mem_cons_of_mem _ hj)),
      gapFillStep_getElem_ne rows i k (Ne.symm (h i (List.mem_cons_self i is)))]

theorem scanHit_cons_true (r : RowInfo) (t : List RowInfo) (h : r.isTableRow = true) :
    scanHit (r :: t) = true := by
  simp [scanHit, h]

theorem scanHit_cons_skip (r : RowInfo) (t : List RowInfo) (h1 : r.isTableRow = false)
    (h2 : r.isParagraph = false) : scanHit (r :: t) = scanHit t := by
  simp [scanHit, h1, h2]

theorem beforeCands_one (rows : List RowInfo) (idx : ℕ) (r1 : RowInfo) (h1 : 1 ≤ idx)
    (h : rows[idx - 1]? = some r1) : ∃ t, beforeCands rows idx = r1 :: t := by
  rw [beforeCands, show List.range 3 = [0, 1, 2] from rfl,
    List.filterMap_cons_some (b := r1) (by rw [if_pos (by omega)]; exact h)]
  exact ⟨_, rfl⟩

theorem beforeCands_two (rows : List RowInfo) (idx : ℕ) (r1 r2 : RowInfo) (h2i : 2 ≤ idx)
    (h1 : rows[idx - 1]? = some r1) (h2 : rows[idx - 2]? = some r2) :
    ∃ t, beforeCands rows idx = r1 :: r2 :: t := by
  rw [beforeCands, show List.range 3 = [0, 1, 2] from rfl,
    List.filterMap_cons_some (b := r1) (by rw [if_pos (by omega)]; exact h1),
    List.filterMap_cons_some (b := r2) (by rw [if_pos (by omega)]; exact h2)]
  exact ⟨_, rfl⟩

theorem beforeCands_three (rows : List RowInfo) (idx : ℕ) (r1 r2 r3 : RowInfo) (h3i : 3 ≤ idx)
    (h1 : rows[idx - 1]? = some r1) (h2 : rows[idx - 2]? = some r2)
    (h3 : rows[idx - 3]? = some r3) :
    ∃ t, beforeCands rows idx = r1 :: r2 :: r3 :: t := by
  rw [beforeCands, show List.range 3 = [0, 1, 2] from rfl,
    List.filterMap_cons_some (b := r1) (by rw [if_pos (by omega)]; exact h1),
    List.filterMap_cons_some (b := r2) (by rw [if_pos (by omega)]; exact h2),
    List.filterMap_cons_some (b := r3) (by rw [if_pos (by omega)]; exact h3)]
  exact ⟨_, rfl⟩

theorem afterCands_one (rows : List RowInfo) (idx : ℕ) (r1 : RowInfo)
    (h : rows[idx + 1]? = some r1) : ∃ t, afterCands rows idx = r1 :: t := by
  rw [afterCands, show List.range 3 = [0, 1, 2] from rfl,
    List.filterMap_cons_some (b := r1) (by simpa using h)]
  exact ⟨_, rfl⟩

theorem afterCands_two (rows : List RowInfo) (idx : ℕ) (r1 r2 : RowInfo)
    (h1 : rows[idx + 1]? = some r1) (h2 : rows[idx + 2]? = some r2) :
    ∃ t, afterCands rows idx = r1 :: r2 :: t := by
  rw [afterCands, show List.range 3 = [0, 1, 2] from rfl,
    List.filterMap_cons_some (b := r1) (by simpa using h1),
    List.filterMap_cons_some (b := r2) (by simpa using h2)]
  exact ⟨_, rfl⟩

theorem afterCands_three (rows : List RowInfo) (idx : ℕ) (r1 r2 r3 : RowInfo)
    (h1 : rows[idx + 1]? = some r1) (h2 : rows[idx + 2]? = some r2)
    (h3 : rows[idx + 3]? = some r3) :
    ∃ t, afterCands rows idx = r1 :: r2 :: r3 :: t := by
  rw [afterCands, show List.range 3 = [0, 1, 2] from rfl,
    List.filterMap_cons_some (b := r1) (by simpa using h1),
    List.filterMap_cons_some (b := r2) (by simpa using h2),
    List.filterMap_cons_some (b := r3) (by simpa using h3)]
  exact ⟨_, rfl⟩

/-- A candidate list whose entry at position `d` is a table row, with no
paragraph rows before it, makes the scan succeed. -/
theorem scanHit_of_window (cands : List RowInfo) (d : ℕ)
    (h : ∃ pre r t, cands = pre ++ r :: t ∧ pre.length = d ∧ r.isTableRow = true
      ∧ ∀ p ∈ pre, p.isParagraph = false) : scanHit cands = true := by
  obtain ⟨pre, r, t, hc, _, hrt, hpre⟩ := h
  subst hc
  clear * - hrt hpre
  induction pre with
  | nil => exact scanHit_cons_true r t hrt
  | cons p ps ih =>
    by_cases hp : p.isTableRow
    · exact scanHit_cons_true _ _ hp
    · rw [List.cons_append, scanHit_cons_skip p _ (by simpa using hp)
        (hpre p (List.mem_cons_self p ps))]
      exact ih (fun q hq => hpre q (List.mem_cons_of_mem _ hq))

/-- C2: a row that failed the Stage-3 alignment test (its aligned count is
below `minAligned`) but has at least 2 words aligned to global columns is
promoted to a table row by the Stage-4 gap fill whenever some Stage-3 table
row lies within 3 rows before it and some Stage-3 table row lies within 3 rows
after it, with no paragraph-classified row intervening on either side. -/
theorem stage4_promotes (rows : List RowInfo) (minAligned idx : ℕ) (r : RowInfo)
    (hr : rows[idx]? = some r)
    (hnt : r.isTableRow = false)
    (hal : 2 ≤ r.alignedCount)
    (hfail : r.alignedCount < minAligned)
    (hnp : r.isParagraph = false)
    (hb : ∃ j rj, j < idx ∧ idx ≤ j + 3 ∧ rows[j]? = some rj ∧ rj.isTableRow = true
      ∧ ∀ k rk, j < k → k < idx → rows[k]? = some rk → rk.isParagraph = false)
    (ha : ∃ j rj, idx < j ∧ j ≤ idx + 3 ∧ rows[j]? = some rj ∧ rj.isTableRow = true
      ∧ ∀ k rk, idx < k → k < j → rows[k]? = some rk → rk.isParagraph = false) :
    ∃ r2, (stage4 minAligned rows)[idx]? = some r2 ∧ r2.isTableRow = true := by
  have hma : 2 < minAligned := lt_of_le_of_lt hal hfail
  have hidx : idx < rows.length := (List.getElem?_eq_some.1 hr).1
  unfold stage4
  rw [if_pos hma]
  unfold gapFill
  obtain ⟨post, hpost, hpostgt⟩ : ∃ post,
      List.range rows.length = List.range idx ++ [idx] ++ post ∧ ∀ i ∈ post, idx < i := by
    refine ⟨(List.range (rows.length - (idx + 1))).map (fun j => idx + 1 + j), ?_, ?_⟩
    · have h1 : rows.length = (idx + 1) + (rows.length - (idx + 1)) := by omega
      conv_lhs => rw [h1]
      rw [List.range_add, List.range_succ]
    · intro i hi
      simp only [List.mem_map] at hi
      obtain ⟨j, _, rfl⟩ := hi
      omega
  rw [hpost, List.foldl_append, List.foldl_append]
  simp only [List.foldl_cons, List.foldl_nil]
  set S1 := List.foldl gapFillStep rows (List.range idx) with hS1def
  have hS1len : S1.length = rows.length := foldlGapFill_length _ rows
  have hS1untouched : ∀ k, idx ≤ k → S1[k]? = rows[k]? := by
    intro k hk
    exact foldlGapFill_untouched _ rows k
      (by intro i hi; simp only [List.mem_range] at hi; omega)
  have hS1idx : S1[idx]? = some r := by rw [hS1untouched idx le_rfl, hr]
  have hguard : (r.isTableRow || r.isParagraph || decide (r.alignedCount < 2)) = false := by
    rw [hnt, hnp]
    simp only [Bool.or_self, Bool.false_or, decide_eq_false_iff_not]
    omega
  have hbefore : scanHit (beforeCands S1 idx) = true := by
    obtain ⟨j, rj, hj1, hj2, hjr, hjt, hjp⟩ := hb
    have hjS1 : (S1[j]?).map (·.isTableRow) = some true :=
      foldlGapFill_mono (List.range idx) rows j (by rw [hjr]; simp [hjt])
    obtain ⟨sj, hsjEq, hsjT⟩ := Option.map_eq_some'.1 hjS1
    have hmid : ∀ k, j < k → k < idx → ∃ sk, S1[k]? = some sk ∧ sk.isParagraph = false := by
      intro k hk1 hk2
      have hkb : k < rows.length := by omega
      have hrk : rows[k]? = some rows[k] := List.getElem?_eq_getElem hkb
      have hpk : rows[k].isParagraph = false := hjp k rows[k] hk1 hk2 hrk
      have hmap := foldlGapFill_para (List.range idx) rows k
      rw [hrk] at hmap
      obtain ⟨sk, h1, h2⟩ := Option.map_eq_some'.1 hmap
      exact ⟨sk, h1, by rw [h2]; exact hpk⟩
    have hd : idx = j + 1 ∨ idx = j + 2 ∨ idx = j + 3 := by omega
    rcases hd with hd | hd | hd
    · have hsj' : S1[idx - 1]? = some sj := by
        rw [show idx - 1 = j from by omega]; exact hsjEq
      obtain ⟨t, hbc⟩ := beforeCands_one S1 idx sj (by omega) hsj'
      rw [hbc]
      exact scanHit_cons_true sj t hsjT
    · obtain ⟨s1, hs1, hs1p⟩ := hmid (j + 1) (by omega) (by omega)
      have hs1' : S1[idx - 1]? = some s1 := by
        rw [show idx - 1 = j + 1 from by omega]; exact hs1
      have hsj' : S1[idx - 2]? = some sj := by
        rw [show idx - 2 = j from by omega]; exact hsjEq
      obtain ⟨t, hbc⟩ := beforeCands_two S1 idx s1 sj (by omega) hs1' hsj'
      rw [hbc]
      by_cases h1t : s1.isTableRow
      · exact scanHit_cons_true _ _ h1t
      · rw [scanHit_cons_skip s1 _ (by simpa using h1t) hs1p]
        exact scanHit_cons_true _ _ hsjT
    · obtain ⟨s1, hs1, hs1p⟩ := hmid (j + 2) (by omega) (by omega)
      obtain ⟨s2, hs2, hs2p⟩ := hmid (j + 1) (by omega) (by omega)
      have hs1' : S1[idx - 1]? = some s1 := by
        rw [show idx - 1 = j + 2 from by omega]; exact hs1
      have hs2' : S1[idx - 2]? = some s2 := by
        rw [show idx - 2 = j + 1 from by omega]; exact hs2
      have hsj' : S1[idx - 3]? = some sj := by
        rw [show idx - 3 = j from by omega]; exact hsjEq
      obtain ⟨t, hbc⟩ := beforeCands_three S1 idx s1 s2 sj (by omega) hs1' hs2' hsj'
      rw [hbc]
      by_cases h1t : s1.isTableRow
      · exact scanHit_cons_true _ _ h1t
      · rw [scanHit_cons_skip s1 _ (by simpa using h1t) hs1p]
        by_cases h2t : s2.isTableRow
        · exact scanHit_cons_true _ _ h2t
        · rw [scanHit_cons_skip s2 _ (by simpa using h2t) hs2p]
          exact scanHit_cons_true _ _ hsjT
  have hafter : scanHit (afterCands S1 idx) = true := by
    obtain ⟨j, rj, hj1, hj2, hjr, hjt, hjp⟩ := ha
    have hjb : j < rows.length := (List.getElem?_eq_some.1 hjr).1
    have hS1j : S1[j]? = some rj := by rw [hS1untouched j (by omega)]; exact hjr
    have hmid : ∀ k, idx < k → k < j → ∃ sk, S1[k]? = some sk ∧ sk.isParagraph = false := by
      intro k hk1 hk2
      have hkb : k < rows.length := by omega
      have hrk : rows[k]? = some rows[k] := List.getElem?_eq_getElem hkb
      exact ⟨rows[k], by rw [hS1untouched k (by omega)]; exact hrk,
        hjp k rows[k] hk1 hk2 hrk⟩
    have hd : j = idx + 1 ∨ j = idx + 2 ∨ j = idx + 3 := by omega
    rcases hd with hd | hd | hd
    · obtain ⟨t, hac⟩ := afterCands_one S1 idx rj (by rw [← hd]; exact hS1j)
      rw [hac]
      exact scanHit_cons_true rj t hjt
    · obtain ⟨s1, hs1, hs1p⟩ := hmid (idx + 1) (by omega) (by omega)
      obtain ⟨t, hac⟩ := afterCands_two S1 idx s1 rj hs1 (by rw [← hd]; exact hS1j)
      rw [hac]
      by_cases h1t : s1.isTableRow
      · exact scanHit_cons_true _ _ h1t
      · rw [scanHit_cons_skip s1 _ (by simpa using h1t) hs1p]
        exact scanHit_cons_true _ _ hjt
    · obtain ⟨s1, hs1, hs1p⟩ := hmid (idx + 1) (by omega) (by omega)
      obtain ⟨s2, hs2, hs2p⟩ := hmid (idx + 2) (by omega) (by omega)
      obtain ⟨t, hac⟩ := afterCands_three S1 idx s1 s2 rj hs1 hs2 (by rw [← hd]; exact hS1j)
      rw [hac]
      by_cases h1t : s1.isTableRow
      · exact scanHit_cons_true _ _ h1t
      · rw [scanHit_cons_skip s1 _ (by simpa using h1t) hs1p]
        by_cases h2t : s2.isTableRow
        · exact scanHit_cons_true _ _ h2t
        · rw [scanHit_cons_skip s2 _ (by simpa using h2t) hs2p]
          exact scanHit_cons_true _ _ hjt
  have hstep : gapFillStep S1 idx = S1.set idx { r with isTableRow := true } := by
    simp only [gapFillStep, hS1idx, hguard, hbefore, hafter]
    simp
  rw [hstep]
  have hfinal := foldlGapFill_mono post (S1.set idx { r with isTableRow := true }) idx
    (by rw [List.getElem?_set_self (by omega : idx < S1.length)]; rfl)
  obtain ⟨r2, h2, h3⟩ := Option.map_eq_some'.1 hfinal
  exact ⟨r2, h2, h3⟩

/-- Witness for C2: in a three-row page with Stage-3 table rows on both sides
and `minAligned = 3`, the middle row with 2 aligned words is promoted. -/
theorem stage4_promotes_witness :
    ∃ r2, (stage4 3 [{ isTableRow := true }, { alignedCount := 2 },
        { isTableRow := true }])[1]? = some r2 ∧ r2.isTableRow = true :=
  stage4_promotes [{ isTableRow := true }, { alignedCount := 2 }, { isTableRow := true }]
    3 1 { alignedCount := 2 } rfl rfl (by decide) (by decide) rfl
    ⟨0, { isTableRow := true }, by omega, by omega, rfl, rfl,
      fun k rk h1 h2 _ => by omega⟩
    ⟨2, { isTableRow := true }, by omega, by omega, rfl, rfl,
      fun k rk h1 h2 _ => by omega⟩

/-! ### C5: the adaptive thresholds -/

/-- C5: with no threshold overrides supplied, a page with a non-empty pooled
positive-gap set derives columnGap = max(p65 × 1.2, 8), globalColumnGap =
max(columnGap × 0.6, 6) and alignTolerance = max(columnGap × 1.5, 15); with an
empty gap set the thresholds are (50, 30, 40). -/
theorem thresholds_formulas (opts : TableDetectorOptions) (words : List PositionedWord)
    (h1 : opts.columnGap = none) (h2 : opts.globalColumnGap = none)
    (h3 : opts.alignTolerance = none) :
    (sortedAllGaps opts.yTolerance words ≠ [] →
      thresholdsOf opts words
        = ⟨max (p65 (sortedAllGaps opts.yTolerance words) * (12/10)) 8,
            max (max (p65 (sortedAllGaps opts.yTolerance words) * (12/10)) 8 * (6/10)) 6,
            max (max (p65 (sortedAllGaps opts.yTolerance words) * (12/10)) 8 * (15/10)) 15⟩)
    ∧ (sortedAllGaps opts.yTolerance words = [] →
        thresholdsOf opts words = ⟨50, 30, 40⟩) := by
  unfold thresholdsOf deriveThresholds
  rw [h1]
  simp only [h2, h3, Option.getD_none]
  constructor
  · intro hne
    split_ifs with hc
    · exact absurd (by simpa using hc) hne
    · rfl
  · intro he
    split_ifs with hc
    · rfl
    · exact absurd (by simp [he]) hc

/-! ### C4: the validation gates all return null, never an error -/

/-- C4: `detectTables` is a total function into `Option String`; it returns
`none` — not an error — on empty input, when no table-seed x0 pool exists,
when the frequency filter leaves no positions, when the global column count
exceeds `maxColumns`, and when the table-row fraction is below
`minTableDensity`. -/
theorem detectTables_gates (words : List PositionedWord) (opts : TableDetectorOptions) :
    (detectTables words opts = none ∨ ∃ s, detectTables words opts = some s)
    ∧ (words = [] → detectTables words opts = none)
    ∧ (allX0s (rowsStage1 opts words) = [] → detectTables words opts = none)
    ∧ (frequentOf opts words = [] → detectTables words opts = none)
    ∧ (opts.maxColumns < (globalColumnsOf opts words).length →
        detectTables words opts = none)
    ∧ (densityOf opts words < opts.minTableDensity → detectTables words opts = none) := by
  refine ⟨?_, ?_, ?_, ?_, ?_, ?_⟩
  · cases h : detectTables words opts with
    | none => exact Or.inl rfl
    | some s => exact Or.inr ⟨s, rfl⟩
  · intro h; simp [detectTables, h]
  · intro h; simp [detectTables, h]
  · intro h; simp [detectTables, h]
  · intro h; simp [detectTables, h]
  · intro h; simp [detectTables, h]

/-- Witness for C4: on the empty word list table detection returns null. -/
theorem detectTables_gates_witness :
    detectTables [] ⟨1000, 5, none, none, none, 2/10, 30⟩ = none :=
  (detectTables_gates [] ⟨1000, 5, none, none, none, 2/10, 30⟩).2.1 rfl

/-! ### C6: monotonicity in `minTableDensity` -/

/-- C6: with all other options fixed, if a table is detected at density
threshold `d2` then one is also detected at any `d1 ≤ d2` — raising
`minTableDensity` never enlarges the set of inputs with a detected table. -/
theorem detectTables_density_mono (words : List PositionedWord)
    (opts : TableDetectorOptions) (d1 d2 : ℚ) (hd : d1 ≤ d2)
    (h : detectTables words { opts with minTableDensity := d2 } ≠ none) :
    detectTables words { opts with minTableDensity := d1 } ≠ none := by
  have key : ∀ d : ℚ, detectTables words { opts with minTableDensity := d }
      = (if words.isEmpty then none
        else if (allX0s (rowsStage1 opts words)).isEmpty then none
        else if (frequentOf opts words).isEmpty then none
        else if opts.maxColumns < (globalColumnsOf opts words).length then none
        else if densityOf opts words < d then none
        else emitResult (buildOutput (globalColumnsOf opts words)
          (colBufferOf opts words) (rowsFinal opts words))) := fun d => rfl
  rw [key d2] at h
  rw [key d1]
  by_cases c1 : words.isEmpty
  · rw [if_pos c1] at h; exact absurd rfl h
  rw [if_neg c1] at h ⊢
  by_cases c2 : (allX0s (rowsStage1 opts words)).isEmpty
  · rw [if_pos c2] at h; exact absurd rfl h
  rw [if_neg c2] at h ⊢
  by_cases c3 : (frequentOf opts words).isEmpty
  · rw [if_pos c3] at h; exact absurd rfl h
  rw [if_neg c3] at h ⊢
  by_cases c4 : opts.maxColumns < (globalColumnsOf opts words).length
  · rw [if_pos c4] at h; exact absurd rfl h
  rw [if_neg c4] at h ⊢
  by_cases c5 : densityOf opts words < d2
  · rw [if_pos c5] at h; exact absurd rfl h
  rw [if_neg c5] at h
  rw [if_neg (by intro hc; exact c5 (lt_of_lt_of_le hc hd))]
  exact h

/-! ### C10: the result is null or a non-empty trimmed string -/

theorem head?_dropWhile (p : α → Bool) :
    ∀ (l : List α) (x : α), (l.dropWhile p).head? = some x → p x = false := by
  intro l
  induction l with
  | nil => intro x h; simp [List.dropWhile] at h
  | cons a t ih =>
    intro x h
    rw [List.dropWhile_cons] at h
    by_cases hp : p a
    · rw [if_pos hp] at h; exact ih x h
    · rw [if_neg hp] at h
      simp only [List.head?_cons, Option.some.injEq] at h
      rw [← h]
      simpa using hp

theorem getLast?_dropWhile (p : α → Bool) :
    ∀ (l : List α), l.dropWhile p ≠ [] → (l.dropWhile p).getLast? = l.getLast? := by
  intro l
  induction l with
  | nil => intro h; simp [List.dropWhile] at h
  | cons a t ih =>
    intro h
    rw [List.dropWhile_cons] at h ⊢
    by_cases hp : p a
    · rw [if_pos hp] at h ⊢
      have ht : t ≠ [] := by
        rintro rfl
        simp [List.dropWhile] at h
      rw [ih h]
      cases t with
      | nil => exact absurd rfl ht
      | cons b u => rw [List.getLast?_cons_cons]
    · rw [if_neg hp]

theorem dropWhile_of_head?_false (p : α → Bool) (l : List α)
    (h : ∀ x, l.head? = some x → p x = false) : l.dropWhile p = l := by
  cases l with
  | nil => rfl
  | cons a t =>
    rw [List.dropWhile_cons, if_neg]
    rw [h a rfl]
    simp

theorem trimChars_idem (cs : List Char) : trimChars (trimChars cs) = trimChars cs := by
  unfold trimChars
  have hBhead : ∀ x,
      ((cs.dropWhile Char.isWhitespace).reverse.dropWhile Char.isWhitespace).head? = some x →
        Char.isWhitespace x = false :=
    fun x hx => head?_dropWhile _ _ x hx
  have hBlast : ∀ x,
      ((cs.dropWhile Char.isWhitespace).reverse.dropWhile Char.isWhitespace).getLast?
        = some x → Char.isWhitespace x = false := by
    intro x hx
    have hBne : (cs.dropWhile Char.isWhitespace).reverse.dropWhile Char.isWhitespace ≠ [] := by
      intro hBnil
      rw [hBnil] at hx
      simp at hx
    rw [getLast?_dropWhile _ _ hBne, List.getLast?_reverse] at hx
    exact head?_dropWhile _ _ x hx
  rw [dropWhile_of_head?_false Char.isWhitespace
      ((cs.dropWhile Char.isWhitespace).reverse.dropWhile Char.isWhitespace).reverse
      (fun x hx => hBlast x (by rwa [List.head?_reverse] at hx)),
    List.reverse_reverse,
    dropWhile_of_head?_false _ _ hBhead]

theorem trimStr_idem (s : String) : trimStr (trimStr s) = trimStr s := by
  unfold trimStr
  rw [show (String.mk (trimChars s.data)).data = trimChars s.data from rfl,
    trimChars_idem]

/-- C10: `detectTables` never returns the empty string — its result is null or
a non-empty string equal to its own trim, so null-ness alone distinguishes
the two outcomes. -/
theorem detectTables_result_shape (words : List PositionedWord)
    (opts : TableDetectorOptions) :
    detectTables words opts = none
    ∨ ∃ s, detectTables words opts = some s ∧ s ≠ "" ∧ trimStr s = s := by
  unfold detectTables
  split_ifs with c1 c2 c3 c4 c5
  · exact Or.inl rfl
  · exact Or.inl rfl
  · exact Or.inl rfl
  · exact Or.inl rfl
  · exact Or.inl rfl
  · unfold emitResult
    split_ifs with c6
    · exact Or.inl rfl
    · exact Or.inr ⟨_, rfl, c6, trimStr_idem _⟩

/-- Witness for C5: a single row with one positive gap of 10 yields thresholds
(max(10×1.2, 8), max(12×0.6, 6), max(12×1.5, 15)) = (12, 36/5, 18). -/
theorem thresholds_formulas_witness :
    thresholdsOf ⟨100, 5, none, none, none, 2/10, 30⟩ [⟨"a", 0, 10, 0⟩, ⟨"b", 20, 30, 0⟩]
      = ⟨12, 36/5, 18⟩ := by
  have hg : sortedAllGaps (5 : ℚ) [⟨"a", 0, 10, 0⟩, ⟨"b", 20, 30, 0⟩] = [10] := by
    norm_num [sortedAllGaps, pageRows, rowKeys, rowAt, posGaps, yKeyOf, jsRound,
      List.insertionSort, List.orderedInsert, List.dedup, List.pwFilter, List.filter]
  have h := (thresholds_formulas ⟨100, 5, none, none, none, 2/10, 30⟩
    [⟨"a", 0, 10, 0⟩, ⟨"b", 20, 30, 0⟩] rfl rfl rfl).1
  rw [show (⟨100, 5, none, none, none, 2/10, 30⟩ : TableDetectorOptions).yTolerance
      = (5 : ℚ) from rfl, hg] at h
  rw [h (by simp)]
  norm_num [p65, Thresholds.mk.injEq]

/-! Evaluation of the detector on the example page, stage by stage. -/

theorem exampleRowKeys : rowKeys 5 exampleWords = [0, 10] := by
  norm_num [rowKeys, exampleWords, yKeyOf, jsRound, List.dedup, List.pwFilter,
    List.insertionSort, List.orderedInsert]

theorem exampleRowAt0 :
    rowAt 5 exampleWords 0
      = [⟨"A1", 0, 50, 0⟩, ⟨"B1", 200, 250, 0⟩, ⟨"C1", 400, 450, 0⟩] := by
  norm_num [rowAt, exampleWords, yKeyOf, jsRound, List.filter,
    List.insertionSort, List.orderedInsert]

theorem exampleRowAt10 :
    rowAt 5 exampleWords 10
      = [⟨"A2", 0, 50, 10⟩, ⟨"B2", 200, 250, 10⟩, ⟨"C2", 400, 450, 10⟩] := by
  norm_num [rowAt, exampleWords, yKeyOf, jsRound, List.filter,
    List.insertionSort, List.orderedInsert]

theorem examplePageRows :
    pageRows 5 exampleWords
      = [[⟨"A1", 0, 50, 0⟩, ⟨"B1", 200, 250, 0⟩, ⟨"C1", 400, 450, 0⟩],
          [⟨"A2", 0, 50, 10⟩, ⟨"B2", 200, 250, 10⟩, ⟨"C2", 400, 450, 10⟩]] := by
  rw [pageRows, exampleRowKeys]
  rw [List.map_cons, List.map_cons, List.map_nil, exampleRowAt0, exampleRowAt10]

theorem exampleGaps : sortedAllGaps 5 exampleWords = [150, 150, 150, 150] := by
  rw [sortedAllGaps, examplePageRows]
  norm_num [posGaps, List.filter, List.insertionSort, List.orderedInsert]

theorem exampleThresholds (d : ℚ) :
    thresholdsOf (exampleOpts d) exampleWords = ⟨180, 108, 270⟩ := by
  have h := (thresholds_formulas (exampleOpts d) exampleWords rfl rfl rfl).1
  rw [show (exampleOpts d).yTolerance = (5 : ℚ) from rfl, exampleGaps] at h
  rw [h (by simp)]
  norm_num [p65, Thresholds.mk.injEq]

theorem exampleMkRow1 :
    mkRowInfo 1000 180 0 [⟨"A1", 0, 50, 0⟩, ⟨"B1", 200, 250, 0⟩, ⟨"C1", 400, 450, 0⟩]
      = exampleRow1 := by
  norm_num [mkRowInfo, exampleRow1, clusterPositions, clusterTail, posGaps, listMax,
    listMin, List.insertionSort, List.orderedInsert, List.filter, RowInfo.mk.injEq]
  exact ⟨by decide, by decide⟩

theorem exampleMkRow2 :
    mkRowInfo 1000 180 10 [⟨"A2", 0, 50, 10⟩, ⟨"B2", 200, 250, 10⟩, ⟨"C2", 400, 450, 10⟩]
      = exampleRow2 := by
  norm_num [mkRowInfo, exampleRow2, clusterPositions, clusterTail, posGaps, listMax,
    listMin, List.insertionSort, List.orderedInsert, List.filter, RowInfo.mk.injEq]
  exact ⟨by decide, by decide⟩

theorem exampleStage1 :
    rowsStage1 (exampleOpts d) exampleWords = [exampleRow1, exampleRow2] := by
  rw [rowsStage1, show (exampleOpts d).yTolerance = (5 : ℚ) from rfl, exampleRowKeys]
  rw [show deriveThresholds (exampleOpts d) (sortedAllGaps 5 exampleWords)
      = thresholdsOf (exampleOpts d) exampleWords from rfl, exampleThresholds d]
  rw [List.map_cons, List.map_cons, List.map_nil, exampleRowAt0, exampleRowAt10]
  rw [show (exampleOpts d).pageWidth = (1000 : ℚ) from rfl]
  rw [exampleMkRow1, exampleMkRow2]

theorem exampleAllX0s : allX0s [exampleRow1, exampleRow2] = [0, 200, 400, 0, 200, 400] := by
  norm_num [allX0s, seedRows, exampleRow1, exampleRow2, List.filter]

theorem exampleMinFreq : minFrequencyOf (exampleOpts d) exampleWords = 2 := by
  rw [minFrequencyOf, exampleStage1]
  norm_num [seedRows, exampleRow1, exampleRow2, List.filter, ceilThreeTenths]

theorem exampleFrequent : frequentOf (exampleOpts d) exampleWords = [0, 200, 400] := by
  rw [frequentOf, exampleStage1, exampleAllX0s, exampleMinFreq,
    show (exampleOpts d).yTolerance = (5 : ℚ) from rfl]
  norm_num [findFrequentPositions, gapChunks, chunkWhen, chunkByAux, medianMember,
    List.insertionSort, List.orderedInsert, List.filter]

theorem exampleGlobalColumns :
    globalColumnsOf (exampleOpts d) exampleWords = [0, 200, 400] := by
  rw [globalColumnsOf, exampleFrequent, exampleThresholds]
  norm_num [clusterPositions, clusterTail, List.insertionSort, List.orderedInsert]

theorem exampleMinAligned : minAlignedOf (exampleOpts d) exampleWords = 2 := by
  rw [minAlignedOf, exampleGlobalColumns]
  norm_num [ceilQuarter]

theorem exampleClassify1 :
    classifyRow [0, 200, 400] 270 2 exampleRow1 = exampleRow1T := by
  norm_num [classifyRow, exampleRow1, exampleRow1T, alignedCountOf, List.filter,
    List.any, RowInfo.mk.injEq]

theorem exampleClassify2 :
    classifyRow [0, 200, 400] 270 2 exampleRow2 = exampleRow2T := by
  norm_num [classifyRow, exampleRow2, exampleRow2T, alignedCountOf, List.filter,
    List.any, RowInfo.mk.injEq]

theorem exampleRowsFinal :
    rowsFinal (exampleOpts d) exampleWords = [exampleRow1T, exampleRow2T] := by
  rw [rowsFinal, exampleStage1, exampleGlobalColumns, exampleThresholds,
    exampleMinAligned, List.map_cons, List.map_cons, List.map_nil,
    exampleClassify1, exampleClassify2]
  norm_num [stage4]

theorem exampleDensity : densityOf (exampleOpts d) exampleWords = 1 := by
  rw [densityOf, exampleRowsFinal]
  norm_num [List.filter, exampleRow1T, exampleRow2T]

theorem exampleColBuffer : colBufferOf (exampleOpts d) exampleWords = 54 := by
  rw [colBufferOf, exampleThresholds]
  norm_num

theorem exampleCells1 :
    fillCells [0, 200, 400] 54 [⟨"A1", 0, 50, 0⟩, ⟨"B1", 200, 250, 0⟩, ⟨"C1", 400, 450, 0⟩]
      = ["A1", "B1", "C1"] := by
  norm_num [fillCells, fillWord, assignCol, List.findIdx?, List.replicate]
  decide

theorem exampleCells2 :
    fillCells [0, 200, 400] 54 [⟨"A2", 0, 50, 10⟩, ⟨"B2", 200, 250, 10⟩, ⟨"C2", 400, 450, 10⟩]
      = ["A2", "B2", "C2"] := by
  norm_num [fillCells, fillWord, assignCol, List.findIdx?, List.replicate]
  decide

theorem exampleRegion :
    regionOutput [0, 200, 400] 54 [exampleRow1T, exampleRow2T]
      = ["| A1 | B1 | C1 |", "| --- | --- | --- |", "| A2 | B2 | C2 |"] := by
  rw [regionOutput, List.map_cons, List.map_cons, List.map_nil]
  rw [show exampleRow1T.words
      = [⟨"A1", 0, 50, 0⟩, ⟨"B1", 200, 250, 0⟩, ⟨"C1", 400, 450, 0⟩] from rfl]
  rw [show exampleRow2T.words
      = [⟨"A2", 0, 50, 10⟩, ⟨"B2", 200, 250, 10⟩, ⟨"C2", 400, 450, 10⟩] from rfl]
  rw [exampleCells1, exampleCells2]
  rw [show mergeLogicalRows [["A1", "B1", "C1"], ["A2", "B2", "C2"]]
      = [["A1", "B1", "C1"], ["A2", "B2", "C2"]] from by
    rw [mergeLogicalRows, mergeGo,
      show overlapCount ["A1", "B1", "C1"] ["A2", "B2", "C2"] = 3 from by decide,
      show filledCount ["A1", "B1", "C1"] = 3 from by decide,
      show filledCount ["A2", "B2", "C2"] = 3 from by decide,
      if_neg (by norm_num), mergeGo]]
  decide

theorem exampleBuildOutput :
    buildOutput [0, 200, 400] 54 [exampleRow1T, exampleRow2T]
      = ["| A1 | B1 | C1 |", "| --- | --- | --- |", "| A2 | B2 | C2 |"] := by
  rw [buildOutput]
  rw [if_pos (show exampleRow1T.isTableRow = true from rfl)]
  rw [show List.takeWhile (·.isTableRow) [exampleRow2T] = [exampleRow2T] from by
    norm_num [List.takeWhile, exampleRow2T]]
  rw [show List.dropWhile (·.isTableRow) [exampleRow2T] = [] from by
    norm_num [List.dropWhile, exampleRow2T]]
  rw [show buildOutput [0, 200, 400] 54 [] = [] from by rw [buildOutput]]
  rw [exampleRegion]
  rfl

theorem exampleDetect :
    detectTables exampleWords (exampleOpts (5/10))
      = some "| A1 | B1 | C1 |\n| --- | --- | --- |\n| A2 | B2 | C2 |" := by
  rw [detectTables, exampleStage1, exampleAllX0s, exampleFrequent,
    exampleGlobalColumns, exampleDensity, exampleColBuffer, exampleRowsFinal,
    exampleBuildOutput]
  rw [if_neg (show ¬exampleWords.isEmpty = true from by decide)]
  rw [if_neg (show ¬([(0 : ℚ), 200, 400, 0, 200, 400].isEmpty = true) from by decide)]
  rw [if_neg (show ¬([(0 : ℚ), 200, 400].isEmpty = true) from by decide)]
  rw [if_neg (show ¬((exampleOpts (5/10)).maxColumns < [(0 : ℚ), 200, 400].length)
    from by decide)]
  rw [if_neg (show ¬((1 : ℚ) < (exampleOpts (5/10)).minTableDensity) from by
    norm_num [exampleOpts])]
  rw [emitResult]
  rw [if_neg (show ¬(trimStr (String.intercalate "\n"
      ["| A1 | B1 | C1 |", "| --- | --- | --- |", "| A2 | B2 | C2 |"]) = "") from by
    decide)]
  decide

/-- Witness for C6: the example page's table is detected at density threshold
1/2, hence — by monotonicity — also at the lower threshold 1/10. -/
theorem detectTables_density_mono_witness :
    detectTables exampleWords (exampleOpts (1/10)) ≠ none := by
  have h := detectTables_density_mono exampleWords (exampleOpts (5/10)) (1/10) (5/10)
    (by norm_num)
    (show detectTables exampleWords
        { exampleOpts (5/10) with minTableDensity := 5/10 } ≠ none from by
      rw [show ({ exampleOpts (5/10) with minTableDensity := (5/10 : ℚ) })
          = exampleOpts (5/10) from rfl, exampleDetect]
      simp)
  rw [show ({ exampleOpts (5/10) with minTableDensity := (1/10 : ℚ) })
      = exampleOpts (1/10) from rfl] at h
  exact h
